import Mathlib

/-!
Verification of the hybrid PoS-to-PoA consensus engine (package `hybrid`)
and its chain-config validation, as a shallow embedding in Lean 4.

The embedding mirrors `consensus/hybrid/hybrid.go` and the config-validation
behaviour exercised by `params/config_test.go`.  The two wrapped consensus
engines are opaque: their behaviour is passed in as function parameters, and
dispatch decisions are recorded as `EngineId` values / call traces.
-/

namespace HybridSpec

/-- `2^64`, the modulus of Go's `uint64` arithmetic. -/
def U64 : Nat := 2 ^ 64

/-- `big.Int` → `uint64` truncation, as performed by `Number.Uint64()`. -/
def u64 (n : Nat) : Nat := n % U64

/-- Identity of a wrapped sub-engine of the hybrid. -/
inductive EngineId where
  | pos
  | poa
deriving DecidableEq, Repr

/-- Raw bytes (Go `[]byte`), each entry one byte value. -/
abbrev Bytes := List Nat

/-- `common.AddressLength` (20 bytes). -/
def AddressLength : Nat := 20

/-- `extraVanity`: extra-data prefix bytes reserved for signer vanity. -/
def extraVanity : Nat := 32

/-- `extraSeal`: extra-data suffix bytes reserved for the signer seal. -/
def extraSeal : Nat := 65

/-- The three hardcoded `defaultInitialSigners` addresses from `hybrid.go`,
as their 20-byte contents. -/
def defaultInitialSigners : List Bytes :=
  [ [0x12, 0x34, 0x56, 0x78, 0x90, 0x12, 0x34, 0x56, 0x78, 0x90,
     0x12, 0x34, 0x56, 0x78, 0x90, 0x12, 0x34, 0x56, 0x78, 0x90],
    [0x23, 0x45, 0x67, 0x89, 0x01, 0x23, 0x45, 0x67, 0x89, 0x01,
     0x23, 0x45, 0x67, 0x89, 0x01, 0x23, 0x45, 0x67, 0x89, 0x01],
    [0x34, 0x56, 0x78, 0x90, 0x12, 0x34, 0x56, 0x78, 0x90, 0x12,
     0x34, 0x56, 0x78, 0x90, 0x12, 0x34, 0x56, 0x78, 0x90, 0x12] ]

/-- A block header, reduced to the fields the hybrid engine reads or writes:
the block number (`header.Number`, a non-negative `big.Int`) and the
consensus-reserved extra-data bytes (`header.Extra`). -/
structure Header where
  number : Nat
  extra : Bytes
deriving DecidableEq, Repr

/-- The `Hybrid` engine struct: the immutable transition height and initial
signer set, plus the three mutable diagnostic fields guarded by `h.mu`. -/
structure Hybrid where
  transitionBlock : Nat
  initialSigners : List Bytes
  transitionLogged : Bool
  lastLoggedEngine : String
  lastLogTime : Nat
deriving DecidableEq, Repr

/-- `New(posEngine, poaEngine, transitionBlock)`: the engine references are
opaque (their behaviour is a per-call parameter in this model), so only the
field initialisation is reflected.  `transitionBlock == 0` is valid. -/
def Hybrid.new (transitionBlock : Nat) : Hybrid :=
  { transitionBlock := transitionBlock
    initialSigners := defaultInitialSigners
    transitionLogged := false
    lastLoggedEngine := ""
    lastLogTime := 0 }

/-- `shouldUsePoA`: true iff the block number is `>= transitionBlock`.
The boundary `log.Debug` has no state effect and is omitted. -/
def Hybrid.shouldUsePoA (h : Hybrid) (blockNumber : Nat) : Bool :=
  decide (blockNumber ≥ h.transitionBlock)

/-- `selectEngine`: returns the engine for `blockNumber` and the updated
diagnostic state.  `now` is the wall-clock second (`time.Now()`); the
rate-limit window `10*time.Second` becomes `10`. -/
def Hybrid.selectEngine (h : Hybrid) (blockNumber : Nat) (now : Nat) :
    EngineId × Hybrid :=
  let usePoA := h.shouldUsePoA blockNumber
  let h1 :=
    if blockNumber = h.transitionBlock ∧ h.transitionLogged = false then
      { h with transitionLogged := true }
    else h
  let currentEngine := if usePoA then "PoA" else "PoS"
  let h2 :=
    if h1.lastLoggedEngine ≠ currentEngine ∨ now - h1.lastLogTime > 10 then
      { h1 with lastLoggedEngine := currentEngine, lastLogTime := now }
    else h1
  (if usePoA then EngineId.poa else EngineId.pos, h2)

/-- `selectEngineFromHeader`: select by the header's `uint64` block number. -/
def Hybrid.selectEngineFromHeader (h : Hybrid) (header : Header) (now : Nat) :
    EngineId × Hybrid :=
  h.selectEngine (u64 header.number) now

/-- A sequence of `selectEngine` calls (block number, wall-clock time),
threading the mutable diagnostic state: models the states an instance can
reach by serving prior operations. -/
def Hybrid.runCalls (h : Hybrid) (calls : List (Nat × Nat)) : Hybrid :=
  calls.foldl (fun acc c => (acc.selectEngine c.1 c.2).2) h

/-- Engine chosen by `Author`: the direct branch
`blockNumber < h.transitionBlock` in the source. -/
def Hybrid.authorEngine (h : Hybrid) (header : Header) : EngineId :=
  if u64 header.number < h.transitionBlock then EngineId.pos else EngineId.poa

/-- Engine chosen by `VerifyHeader`: the source branches directly on
`blockNumber < h.transitionBlock` (PoS era → PoS engine, always), and
otherwise uses the PoA engine. -/
def Hybrid.verifyHeaderEngine (h : Hybrid) (header : Header) : EngineId :=
  if u64 header.number < h.transitionBlock then EngineId.pos else EngineId.poa

/-- Engine chosen by `VerifyUncles`: direct branch on the block number. -/
def Hybrid.verifyUnclesEngine (h : Hybrid) (header : Header) : EngineId :=
  if u64 header.number < h.transitionBlock then EngineId.pos else EngineId.poa

/-- Outcome shape of `VerifyHeaders`. -/
inductive VHOutcome where
  /-- Empty batch: quit and result channels are created, closed and returned
  immediately; no sub-engine is invoked. -/
  | immediate
  /-- Whole batch forwarded to one sub-engine's `VerifyHeaders`. -/
  | bulk (e : EngineId)
  /-- Per-header sequential dispatch through `VerifyHeader`. -/
  | split
deriving DecidableEq, Repr

/-- Which path `VerifyHeaders` takes: the source inspects only the first and
last headers' numbers to decide between bulk forwarding and the split path. -/
def Hybrid.verifyHeadersOutcome (h : Hybrid) (headers : List Header) :
    VHOutcome :=
  match headers with
  | [] => VHOutcome.immediate
  | hd :: tl =>
    let firstBlock := u64 hd.number
    let lastBlock := u64 ((hd :: tl).getLast (List.cons_ne_nil hd tl)).number
    if lastBlock < h.transitionBlock then VHOutcome.bulk EngineId.pos
    else if firstBlock ≥ h.transitionBlock then VHOutcome.bulk EngineId.poa
    else VHOutcome.split

/-- For each header of the batch, the sub-engine that verifies it: on a bulk
path the receiving engine verifies every header of the batch; on the split
path each header goes through `VerifyHeader`. -/
def Hybrid.verifyHeadersEngines (h : Hybrid) (headers : List Header) :
    List EngineId :=
  match h.verifyHeadersOutcome headers with
  | VHOutcome.immediate => []
  | VHOutcome.bulk e => headers.map (fun _ => e)
  | VHOutcome.split => headers.map (fun hd => h.verifyHeaderEngine hd)

/-- Go's `copy(dst[off:], src)`: overwrite `min (dst.length - off) src.length`
bytes of `dst` starting at `off` with the corresponding prefix of `src`. -/
def goCopy (dst src : Bytes) (off : Nat) : Bytes :=
  let k := min (dst.length - off) src.length
  dst.take off ++ src.take k ++ dst.drop (off + k)

/-- The `for i, signer := range h.initialSigners` loop of
`prepareTransitionBlock`: copy signer `i` at offset
`extraVanity + i*AddressLength` of the buffer. -/
def copySigners (extraData : Bytes) (signers : List Bytes) (i : Nat) : Bytes :=
  match signers with
  | [] => extraData
  | s :: rest =>
    copySigners (goCopy extraData s (extraVanity + i * AddressLength)) rest (i + 1)

/-- The extra-data bytes built by `prepareTransitionBlock`: a freshly
allocated zero buffer of size `extraVanity + |S|*AddressLength + extraSeal`
(`make([]byte, ...)`), with the signers copied in by the loop. -/
def transitionExtraData (signers : List Bytes) : Bytes :=
  copySigners
    (List.replicate (extraVanity + signers.length * AddressLength + extraSeal) 0)
    signers 0

/-- `prepareTransitionBlock`: write the transition extra-data into the header,
then delegate the remainder of preparation to the PoA engine.  The second
component is the trace of sub-engine `Prepare` calls made (engine identity and
the header value passed to it). -/
def Hybrid.prepareTransitionBlock (h : Hybrid)
    (poaPrepare : Header → Except String Header) (header : Header) :
    Except String Header × List (EngineId × Header) :=
  let header1 : Header := { header with extra := transitionExtraData h.initialSigners }
  (poaPrepare header1, [(EngineId.poa, header1)])

/-- `Prepare`: special-cases the transition block (→ `prepareTransitionBlock`);
otherwise delegates to the engine chosen by `selectEngineFromHeader`.  Returns
the result, the updated hybrid state, and the sub-engine call trace. -/
def Hybrid.prepare (h : Hybrid)
    (posPrepare poaPrepare : Header → Except String Header)
    (header : Header) (now : Nat) :
    Except String Header × Hybrid × List (EngineId × Header) :=
  let blockNumber := u64 header.number
  if blockNumber = h.transitionBlock then
    let r := h.prepareTransitionBlock poaPrepare header
    (r.1, h, r.2)
  else
    let sel := h.selectEngineFromHeader header now
    match sel.1 with
    | EngineId.pos => (posPrepare header, sel.2, [(EngineId.pos, header)])
    | EngineId.poa => (poaPrepare header, sel.2, [(EngineId.poa, header)])

/-- `CalcDifficulty`: selects the engine by `parent.Number.Uint64() + 1`
computed in `uint64` arithmetic, and returns that engine's result unchanged
together with the selected engine identity and updated state. -/
def Hybrid.calcDifficulty (h : Hybrid)
    (posCalc poaCalc : Nat → Header → Int) (time : Nat) (parent : Header)
    (now : Nat) : Int × EngineId × Hybrid :=
  let nextBlockNumber := u64 (u64 parent.number + 1)
  let sel := h.selectEngine nextBlockNumber now
  (match sel.1 with
   | EngineId.pos => posCalc time parent
   | EngineId.poa => poaCalc time parent,
   sel.1, sel.2)

/-- `Close`: invoke `posEngine.Close()` then, unconditionally, also
`poaEngine.Close()`; return the first non-nil error.  The engines' close
results are the parameters; the second component is the ordered list of
sub-engine close invocations actually made. -/
def hybridClose (posClose poaClose : Option String) :
    Option String × List EngineId :=
  let err1 := posClose
  let err2 := poaClose
  ((match err1 with
    | some e => some e
    | none => err2),
   [EngineId.pos, EngineId.poa])

/-- `CliqueConfig` (PoA sub-configuration): period and epoch. -/
structure CliqueConfig where
  period : Nat
  epoch : Nat
deriving DecidableEq, Repr

/-- The chain-config subset relevant to transition validation:
`PoSToPoATransitionBlock *big.Int` and `Clique *CliqueConfig`. -/
structure ChainConfig where
  chainId : Int
  posToPoATransitionBlock : Option Int
  clique : Option CliqueConfig
deriving DecidableEq, Repr

/-- Modelled from the spec: the implementation of
`ChainConfig.validatePoSToPoATransition` (in `params/config.go`) is not in the
sources, only its tests.  Per spec §4.1 validation fails, in the listed order,
when the transition height is present and negative
("PoS to PoA transition block cannot be negative") and when it is present but
the PoA sub-configuration is absent
("PoS to PoA transition requires Clique configuration"); otherwise it
succeeds.  `none` models a nil error. -/
def ChainConfig.validatePoSToPoATransition (c : ChainConfig) : Option String :=
  match c.posToPoATransitionBlock with
  | none => none
  | some b =>
    if b < 0 then some "PoS to PoA transition block cannot be negative"
    else
      match c.clique with
      | none => some "PoS to PoA transition requires Clique configuration"
      | some _ => none

/-- Modelled from the spec: the transition-validation step of
`CheckConfigForkOrder` (in `params/config.go`, absent from the sources).  Per
`config_test.go` a validation failure surfaces wrapped as
"invalid PoS to PoA transition configuration: <msg>"; the unrelated fork-order
checks for other forks are out of scope and elided. -/
def ChainConfig.checkConfigForkOrder (c : ChainConfig) : Option String :=
  match c.validatePoSToPoATransition with
  | some msg => some ("invalid PoS to PoA transition configuration: " ++ msg)
  | none => none

/-- Boolean substring test on character lists, for "error text contains". -/
def containsSub : List Char → List Char → Bool
  | [], sub => sub.isEmpty
  | c :: rest, sub => sub.isPrefixOf (c :: rest) || containsSub rest sub

/-- `s` contains `sub` as a contiguous substring. -/
def textContains (s sub : String) : Bool :=
  containsSub s.data sub.data

/-- A hybrid engine with transition height 100, as in the repository tests. -/
def hy100 : Hybrid := Hybrid.new 100

/-- A config with a negative transition height and no Clique sub-config. -/
def cfgNegNoClique : ChainConfig :=
  { chainId := 1, posToPoATransitionBlock := some (-1), clique := none }

/-- A config with transition height 1000 and no Clique sub-config. -/
def cfgNoClique : ChainConfig :=
  { chainId := 1, posToPoATransitionBlock := some 1000, clique := none }

/-- A config with transition height 0 and a Clique sub-config. -/
def cfgGenesisClique : ChainConfig :=
  { chainId := 1, posToPoATransitionBlock := some 0,
    clique := some { period := 15, epoch := 30000 } }

lemma selectEngine_fst (h : Hybrid) (n now : Nat) :
    (h.selectEngine n now).1 =
      if h.transitionBlock ≤ n then EngineId.poa else EngineId.pos := by
  by_cases hc : h.transitionBlock ≤ n <;>
    simp [Hybrid.selectEngine, Hybrid.shouldUsePoA, hc, ge_iff_le]

lemma selectEngine_transitionBlock (h : Hybrid) (n now : Nat) :
    (h.selectEngine n now).2.transitionBlock = h.transitionBlock := by
  simp only [Hybrid.selectEngine]
  split <;> split <;> split <;> rfl

lemma runCalls_transitionBlock (h : Hybrid) (calls : List (Nat × Nat)) :
    (h.runCalls calls).transitionBlock = h.transitionBlock := by
  induction calls generalizing h with
  | nil => rfl
  | cons c cs ih =>
    show (((h.selectEngine c.1 c.2).2).runCalls cs).transitionBlock = _
    rw [ih, selectEngine_transitionBlock]

lemma verifyHeaderEngine_eq (h : Hybrid) (header : Header) :
    h.verifyHeaderEngine header =
      if h.transitionBlock ≤ u64 header.number then EngineId.poa
      else EngineId.pos := by
  by_cases hc : h.transitionBlock ≤ u64 header.number
  · simp [Hybrid.verifyHeaderEngine, hc, Nat.not_lt.mpr hc]
  · simp [Hybrid.verifyHeaderEngine, hc, Nat.lt_of_not_le hc]

lemma prepare_trace_engines (h : Hybrid)
    (posP poaP : Header → Except String Header) (header : Header) (now : Nat) :
    ((h.prepare posP poaP header now).2.2).map Prod.fst =
      [if h.transitionBlock ≤ u64 header.number then EngineId.poa
       else EngineId.pos] := by
  by_cases he : u64 header.number = h.transitionBlock
  · simp [Hybrid.prepare, he, Hybrid.prepareTransitionBlock]
  · have hs := selectEngine_fst h (u64 header.number) now
    by_cases hc : h.transitionBlock ≤ u64 header.number <;>
      simp [hc] at hs <;>
      simp [Hybrid.prepare, he, Hybrid.selectEngineFromHeader, hs, hc]

/-- C1: for every block number, transition height and diagnostic state —
including any state reached by previously serving blocks with `n ≥ H`, as
during a reorg — every dispatched operation (`VerifyHeader`, `Author`,
`VerifyUncles`, the `selectEngine`-routed operations, and `Prepare`)
delegates to the PoS engine exactly when `n < H` and to the PoA engine
exactly when `n ≥ H`.  With `H = 0` the PoA engine is chosen for every block,
and with `H = 2^64 - 1` (max `uint64`) exactly for that single block number. -/
theorem claim_C1_dispatch_boundary (h : Hybrid) (calls : List (Nat × Nat))
    (header : Header) (now : Nat)
    (posP poaP : Header → Except String Header) :
    ((h.runCalls calls).verifyHeaderEngine header = EngineId.pos ↔
        u64 header.number < h.transitionBlock) ∧
    ((h.runCalls calls).verifyHeaderEngine header = EngineId.poa ↔
        h.transitionBlock ≤ u64 header.number) ∧
    ((h.runCalls calls).authorEngine header = EngineId.poa ↔
        h.transitionBlock ≤ u64 header.number) ∧
    ((h.runCalls calls).verifyUnclesEngine header = EngineId.poa ↔
        h.transitionBlock ≤ u64 header.number) ∧
    (((h.runCalls calls).selectEngine (u64 header.number) now).1 = EngineId.poa ↔
        h.transitionBlock ≤ u64 header.number) ∧
    (((h.runCalls calls).prepare posP poaP header now).2.2.map Prod.fst =
        [if h.transitionBlock ≤ u64 header.number then EngineId.poa
         else EngineId.pos]) ∧
    (({ h with transitionBlock := 0 } : Hybrid).verifyHeaderEngine header =
        EngineId.poa) ∧
    (({ h with transitionBlock := U64 - 1 } : Hybrid).verifyHeaderEngine header =
        EngineId.poa ↔ u64 header.number = U64 - 1) := by
  have htb := runCalls_transitionBlock h calls
  have hnum : u64 header.number < U64 := Nat.mod_lt _ (by norm_num [U64])
  refine ⟨?_, ?_, ?_, ?_, ?_, ?_, ?_, ?_⟩
  · rw [verifyHeaderEngine_eq, htb]
    by_cases hc : h.transitionBlock ≤ u64 header.number
    · simp [hc, Nat.not_lt.mpr hc]
    · simp [hc, Nat.lt_of_not_le hc]
  · rw [verifyHeaderEngine_eq, htb]
    by_cases hc : h.transitionBlock ≤ u64 header.number <;> simp [hc]
  · rw [show (h.runCalls calls).authorEngine header =
        (h.runCalls calls).verifyHeaderEngine header from rfl,
      verifyHeaderEngine_eq, htb]
    by_cases hc : h.transitionBlock ≤ u64 header.number <;> simp [hc]
  · rw [show (h.runCalls calls).verifyUnclesEngine header =
        (h.runCalls calls).verifyHeaderEngine header from rfl,
      verifyHeaderEngine_eq, htb]
    by_cases hc : h.transitionBlock ≤ u64 header.number <;> simp [hc]
  · rw [selectEngine_fst, htb]
    by_cases hc : h.transitionBlock ≤ u64 header.number <;> simp [hc]
  · rw [prepare_trace_engines, htb]
  · rw [verifyHeaderEngine_eq]
    simp
  · rw [verifyHeaderEngine_eq]
    by_cases hc : u64 header.number = U64 - 1
    · simp [hc]
    · have : ¬ (U64 - 1 ≤ u64 header.number) := by omega
      simp [this, hc]

/-- C6: engine selection is a pure function of `(block number, transition
height)`: two `selectEngine` calls with the same block number and transition
height return the same engine identity, whatever the values of the mutable
diagnostic fields (`transitionLogged`, `lastLoggedEngine`, `lastLogTime`),
the signer set, or the wall-clock times of the calls. -/
theorem claim_C6_dispatch_purity (H : Nat) (sig1 sig2 : List Bytes)
    (tl1 tl2 : Bool) (le1 le2 : String) (lt1 lt2 n now1 now2 : Nat) :
    ((Hybrid.mk H sig1 tl1 le1 lt1).selectEngine n now1).1 =
      ((Hybrid.mk H sig2 tl2 le2 lt2).selectEngine n now2).1 := by
  rw [selectEngine_fst, selectEngine_fst]

/-- C7: `CalcDifficulty` selects the sub-engine by the `uint64` successor of
the parent's block number (the number of the block being produced): the PoA
engine exactly when `parent.number + 1 ≥ H` (computed in `uint64` arithmetic,
see C9), the PoS engine otherwise, and it returns the selected engine's
result unchanged. -/
theorem claim_C7_calc_difficulty (h : Hybrid)
    (posCalc poaCalc : Nat → Header → Int) (time : Nat) (parent : Header)
    (now : Nat) :
    ((h.calcDifficulty posCalc poaCalc time parent now).2.1 = EngineId.poa ↔
        h.transitionBlock ≤ u64 (u64 parent.number + 1)) ∧
    (h.calcDifficulty posCalc poaCalc time parent now).1 =
      (if h.transitionBlock ≤ u64 (u64 parent.number + 1) then
        poaCalc time parent
       else posCalc time parent) := by
  have hs := selectEngine_fst h (u64 (u64 parent.number + 1)) now
  by_cases hc : h.transitionBlock ≤ u64 (u64 parent.number + 1) <;>
    simp [hc] at hs <;>
    simp [Hybrid.calcDifficulty, hs, hc]

/-- C9: the selecting number of `CalcDifficulty` is the `uint64` successor and
wraps modulo `2^64`: with `parent.number = 2^64 - 1` it is `0`, so for every
transition height `0 < H < 2^64` the PoS engine is selected and its result
returned, even though the parent block itself lies in the PoA era
(`VerifyHeader` of the parent uses the PoA engine). -/
theorem claim_C9_successor_wraps (h : Hybrid)
    (posCalc poaCalc : Nat → Header → Int) (time : Nat) (extra : Bytes)
    (now : Nat) (hpos : 0 < h.transitionBlock) (hu : h.transitionBlock < U64) :
    u64 (u64 (U64 - 1) + 1) = 0 ∧
    (h.calcDifficulty posCalc poaCalc time ⟨U64 - 1, extra⟩ now).2.1 =
      EngineId.pos ∧
    (h.calcDifficulty posCalc poaCalc time ⟨U64 - 1, extra⟩ now).1 =
      posCalc time ⟨U64 - 1, extra⟩ ∧
    h.verifyHeaderEngine ⟨U64 - 1, extra⟩ = EngineId.poa := by
  have hwrap : u64 (u64 (U64 - 1) + 1) = 0 := by
    have h1 : u64 (U64 - 1) = U64 - 1 := Nat.mod_eq_of_lt (by norm_num [U64])
    rw [h1, u64, show U64 - 1 + 1 = U64 from by norm_num [U64], Nat.mod_self]
  have hsel := selectEngine_fst h (u64 (u64 (⟨U64 - 1, extra⟩ : Header).number + 1)) now
  have hn : u64 (⟨U64 - 1, extra⟩ : Header).number = U64 - 1 :=
    Nat.mod_eq_of_lt (by norm_num [U64])
  refine ⟨hwrap, ?_, ?_, ?_⟩
  · simp only [Hybrid.calcDifficulty]
    rw [selectEngine_fst]
    simp only [hn] at hwrap ⊢
    rw [show u64 (U64 - 1 + 1) = 0 from by rw [u64, show U64 - 1 + 1 = U64 from by norm_num [U64], Nat.mod_self]]
    simp [Nat.not_le.mpr hpos]
  · simp only [Hybrid.calcDifficulty]
    rw [selectEngine_fst]
    simp only [hn]
    rw [show u64 (U64 - 1 + 1) = 0 from by rw [u64, show U64 - 1 + 1 = U64 from by norm_num [U64], Nat.mod_self]]
    simp [Nat.not_le.mpr hpos]
  · rw [verifyHeaderEngine_eq, hn]
    simp [Nat.le_sub_one_of_lt hu]

/-- C9 witness: transition height 100, parent number `2^64 - 1`. -/
theorem claim_C9_successor_wraps_witness :
    ((Hybrid.new 100).calcDifficulty (fun _ _ => 0) (fun _ _ => 1) 0
        ⟨U64 - 1, []⟩ 0).2.1 = EngineId.pos ∧
    (Hybrid.new 100).verifyHeaderEngine ⟨U64 - 1, []⟩ = EngineId.poa :=
  ⟨(claim_C9_successor_wraps (Hybrid.new 100) (fun _ _ => 0) (fun _ _ => 1) 0
      [] 0 (by decide) (by norm_num [Hybrid.new, U64])).2.1,
   (claim_C9_successor_wraps (Hybrid.new 100) (fun _ _ => 0) (fun _ _ => 1) 0
      [] 0 (by decide) (by norm_num [Hybrid.new, U64])).2.2.2⟩

/-- C8: `VerifyHeaders` on an empty batch returns immediately with both the
quit channel and the result channel closed (`VHOutcome.immediate`), and
neither sub-engine verifies any header. -/
theorem claim_C8_empty_batch (h : Hybrid) :
    h.verifyHeadersOutcome [] = VHOutcome.immediate ∧
    h.verifyHeadersEngines [] = [] :=
  ⟨rfl, rfl⟩

/-- C4: `Close` always invokes both sub-engines' `Close` (PoS first, then
PoA, regardless of the PoS result) and returns the first non-nil error:
the PoS error when the PoS close fails, otherwise the PoA result, and `none`
when both succeed. -/
theorem claim_C4_close_both (posClose poaClose : Option String) :
    (hybridClose posClose poaClose).2 = [EngineId.pos, EngineId.poa] ∧
    (hybridClose posClose poaClose).1 =
      (match posClose with
       | some e => some e
       | none => poaClose) ∧
    (∀ e, (hybridClose (some e) none).1 = some e) ∧
    (∀ e, (hybridClose (some e) none).2 = [EngineId.pos, EngineId.poa]) ∧
    (∀ e, (hybridClose none (some e)).1 = some e) ∧
    (hybridClose none none).1 = none :=
  ⟨rfl, rfl, fun _ => rfl, fun _ => rfl, fun _ => rfl, rfl⟩

lemma pairwise_le_getLast {l : List Header}
    (hp : l.Pairwise (fun a b => u64 a.number ≤ u64 b.number))
    {x : Header} (hx : x ∈ l) (hne : l ≠ []) :
    u64 x.number ≤ u64 (l.getLast hne).number := by
  induction l with
  | nil => simp at hx
  | cons a t ih =>
    cases t with
    | nil =>
      simp at hx
      subst hx
      exact le_refl _
    | cons b t2 =>
      rcases List.mem_cons.mp hx with rfl | hxt
      · have hmem : (b :: t2).getLast (List.cons_ne_nil b t2) ∈ b :: t2 :=
          List.getLast_mem _
        have hrel := (List.pairwise_cons.mp hp).1 _ hmem
        rw [List.getLast_cons (List.cons_ne_nil b t2)]
        exact hrel
      · have := ih (List.pairwise_cons.mp hp).2 hxt (List.cons_ne_nil b t2)
        rw [List.getLast_cons (List.cons_ne_nil b t2)]
        exact this

/-- C2 counterexample: with transition height 100 and the batch
`[header 150, header 50]` — which straddles the height (50 < 100 ≤ 150) but
is not in ascending order — `VerifyHeaders` inspects only the first and last
headers (`lastBlock = 50 < 100`) and bulk-forwards the whole batch to the
PoS engine, so the header with number `150 ≥ H` is verified by the PoS
engine, not the PoA engine as the claim requires. -/
theorem claim_C2_counterexample :
    (u64 (Header.mk 50 []).number < hy100.transitionBlock ∧
      hy100.transitionBlock ≤ u64 (Header.mk 150 []).number) ∧
    hy100.verifyHeadersEngines [Header.mk 150 [], Header.mk 50 []] =
      [EngineId.pos, EngineId.pos] := by decide

/-- C2 amended: for every batch of headers in ascending block-number order
that straddles the transition height (some header `< H` and some `≥ H`),
`VerifyHeaders` produces exactly one result per header, and each header with
number `< H` is verified by the PoS engine while each header with number
`≥ H` is verified by the PoA engine. -/
theorem claim_C2_batch_split (h : Hybrid) (headers : List Header)
    (hsorted : headers.Pairwise (fun a b => u64 a.number ≤ u64 b.number))
    (hlo : ∃ hd ∈ headers, u64 hd.number < h.transitionBlock)
    (hhi : ∃ hd ∈ headers, h.transitionBlock ≤ u64 hd.number) :
    h.verifyHeadersEngines headers =
      headers.map (fun hd =>
        if u64 hd.number < h.transitionBlock then EngineId.pos
        else EngineId.poa) ∧
    (h.verifyHeadersEngines headers).length = headers.length := by
  obtain ⟨xlo, hxlo_mem, hxlo⟩ := hlo
  obtain ⟨xhi, hxhi_mem, hxhi⟩ := hhi
  cases headers with
  | nil => simp at hxlo_mem
  | cons hd tl =>
    have hne : hd :: tl ≠ [] := List.cons_ne_nil hd tl
    have hhead : u64 hd.number ≤ u64 xlo.number := by
      rcases List.mem_cons.mp hxlo_mem with rfl | hmem
      · exact le_refl _
      · exact (List.pairwise_cons.mp hsorted).1 _ hmem
    have hfirst : u64 hd.number < h.transitionBlock := lt_of_le_of_lt hhead hxlo
    have hlast : h.transitionBlock ≤
        u64 ((hd :: tl).getLast hne).number :=
      le_trans hxhi (pairwise_le_getLast hsorted hxhi_mem hne)
    have houtcome : h.verifyHeadersOutcome (hd :: tl) = VHOutcome.split := by
      simp only [Hybrid.verifyHeadersOutcome]
      rw [if_neg (by omega), if_neg (by omega)]
    constructor
    · simp only [Hybrid.verifyHeadersEngines, houtcome]
      simp [Hybrid.verifyHeaderEngine]
    · simp only [Hybrid.verifyHeadersEngines, houtcome]
      simp

/-- C2 witness: transition height 100, the ascending straddling batch
`[50, 99, 100, 101]` yields one engine per header, PoS below the height and
PoA at and above it. -/
theorem claim_C2_batch_split_witness :
    hy100.verifyHeadersEngines
        [Header.mk 50 [], Header.mk 99 [], Header.mk 100 [], Header.mk 101 []] =
      [EngineId.pos, EngineId.pos, EngineId.poa, EngineId.poa] ∧
    (hy100.verifyHeadersEngines
        [Header.mk 50 [], Header.mk 99 [], Header.mk 100 [], Header.mk 101 []]).length = 4 := by
  have h := claim_C2_batch_split hy100
    [Header.mk 50 [], Header.mk 99 [], Header.mk 100 [], Header.mk 101 []]
    (by decide) (by decide) (by decide)
  refine ⟨?_, h.2⟩
  rw [h.1]
  decide

lemma copySigners_append (sigs : List Bytes) (pre : Bytes) (i m : Nat)
    (hlen : ∀ s ∈ sigs, s.length = AddressLength)
    (hpre : pre.length = extraVanity + i * AddressLength) :
    copySigners (pre ++ List.replicate (sigs.length * AddressLength + m) 0)
        sigs i =
      pre ++ sigs.flatten ++ List.replicate m 0 := by
  induction sigs generalizing pre i with
  | nil => simp [copySigners]
  | cons s rest ih =>
    have hs : s.length = AddressLength := hlen s (by simp)
    have hrest : ∀ t ∈ rest, t.length = AddressLength :=
      fun t ht => hlen t (by simp [ht])
    have hN : (s :: rest).length * AddressLength + m =
        AddressLength + (rest.length * AddressLength + m) := by
      simp [List.length_cons]
      ring
    have hstep :
        goCopy (pre ++ List.replicate ((s :: rest).length * AddressLength + m) 0)
            s (extraVanity + i * AddressLength) =
          (pre ++ s) ++ List.replicate (rest.length * AddressLength + m) 0 := by
      rw [hN, List.replicate_add, ← List.append_assoc]
      have hdst : ((pre ++ List.replicate AddressLength 0) ++
          List.replicate (rest.length * AddressLength + m) 0).length =
          extraVanity + i * AddressLength + AddressLength +
            (rest.length * AddressLength + m) := by
        simp [hpre]
        ring
      rw [goCopy]
      have hoff : extraVanity + i * AddressLength = pre.length := hpre.symm
      have hk : min (((pre ++ List.replicate AddressLength 0) ++
          List.replicate (rest.length * AddressLength + m) 0).length -
            (extraVanity + i * AddressLength)) s.length = AddressLength := by
        rw [hdst, hs]
        omega
      rw [hk]
      have htake : ((pre ++ List.replicate AddressLength 0) ++
          List.replicate (rest.length * AddressLength + m) 0).take
            (extraVanity + i * AddressLength) = pre := by
        rw [hoff, List.append_assoc, List.take_left]
      have hdrop : ((pre ++ List.replicate AddressLength 0) ++
          List.replicate (rest.length * AddressLength + m) 0).drop
            (extraVanity + i * AddressLength + AddressLength) =
          List.replicate (rest.length * AddressLength + m) 0 := by
        have hlen2 : (pre ++ List.replicate AddressLength 0).length =
            extraVanity + i * AddressLength + AddressLength := by
          simp [hpre]
        rw [show extraVanity + i * AddressLength + AddressLength =
            (pre ++ List.replicate AddressLength 0).length from hlen2.symm,
          List.drop_left]
      rw [htake, hdrop, ← hs, List.take_length, List.append_assoc]
    show copySigners
        (goCopy (pre ++ List.replicate ((s :: rest).length * AddressLength + m) 0)
          s (extraVanity + i * AddressLength)) rest (i + 1) = _
    rw [hstep]
    have hpre2 : (pre ++ s).length = extraVanity + (i + 1) * AddressLength := by
      simp [hpre, hs]
      ring
    rw [ih (pre ++ s) (i + 1) hrest hpre2]
    simp [List.append_assoc]

lemma transitionExtraData_eq (signers : List Bytes)
    (hlen : ∀ s ∈ signers, s.length = AddressLength) :
    transitionExtraData signers =
      List.replicate extraVanity 0 ++ signers.flatten ++
        List.replicate extraSeal 0 := by
  have hsplit : extraVanity + signers.length * AddressLength + extraSeal =
      extraVanity + (signers.length * AddressLength + extraSeal) := by omega
  have h := copySigners_append signers (List.replicate extraVanity 0) 0
    extraSeal hlen (by simp)
  rw [transitionExtraData, hsplit, List.replicate_add]
  exact h

lemma flatten_length_of_addresses (sigs : List Bytes)
    (hlen : ∀ s ∈ sigs, s.length = AddressLength) :
    sigs.flatten.length = sigs.length * AddressLength := by
  induction sigs with
  | nil => simp
  | cons s rest ih =>
    have hs : s.length = AddressLength := hlen s (by simp)
    have hrest : ∀ t ∈ rest, t.length = AddressLength :=
      fun t ht => hlen t (by simp [ht])
    simp [hs, ih hrest]
    ring

lemma triple_take_left (a b c : Bytes) (n : Nat) (ha : a.length = n) :
    (a ++ b ++ c).take n = a := by
  rw [← ha, List.append_assoc, List.take_left]

lemma triple_drop_left (a b c : Bytes) (n : Nat) (ha : a.length = n) :
    (a ++ b ++ c).drop n = b ++ c := by
  rw [← ha, List.append_assoc, List.drop_left]

lemma triple_drop_two (a b c : Bytes) (n m : Nat) (ha : a.length = n)
    (hb : b.length = m) :
    (a ++ b ++ c).drop (n + m) = c := by
  have : (a ++ b).length = n + m := by simp [ha, hb]
  rw [← this, List.drop_left]

/-- C3: when `Prepare` is called on a header whose (`uint64`) number equals
the transition height, the hybrid writes a fresh extra field of exactly
`extraVanity + 20·|S| + extraSeal` bytes — a zero 32-byte vanity, the `|S|`
20-byte initial authority addresses concatenated in declared order, and a
zero 65-byte seal — and then delegates the remainder of preparation to the
PoA engine on that header; the PoS engine's `Prepare` is never invoked
(the call trace is exactly one PoA call). -/
theorem claim_C3_transition_extra (h : Hybrid)
    (posP poaP : Header → Except String Header) (header : Header) (now : Nat)
    (hsig : ∀ s ∈ h.initialSigners, s.length = AddressLength)
    (hn : u64 header.number = h.transitionBlock) :
    (h.prepare posP poaP header now).2.2 =
      [(EngineId.poa,
        { header with extra := transitionExtraData h.initialSigners })] ∧
    (h.prepare posP poaP header now).1 =
      poaP { header with extra := transitionExtraData h.initialSigners } ∧
    (transitionExtraData h.initialSigners).length =
      extraVanity + AddressLength * h.initialSigners.length + extraSeal ∧
    (transitionExtraData h.initialSigners).take extraVanity =
      List.replicate extraVanity 0 ∧
    ((transitionExtraData h.initialSigners).drop extraVanity).take
        (AddressLength * h.initialSigners.length) = h.initialSigners.flatten ∧
    (transitionExtraData h.initialSigners).drop
        (extraVanity + AddressLength * h.initialSigners.length) =
      List.replicate extraSeal 0 := by
  have heq := transitionExtraData_eq h.initialSigners hsig
  have hflat := flatten_length_of_addresses h.initialSigners hsig
  have hvan : (List.replicate extraVanity (0 : Nat)).length = extraVanity :=
    List.length_replicate _ _
  have hflat2 : h.initialSigners.flatten.length =
      AddressLength * h.initialSigners.length := by rw [hflat]; ring
  refine ⟨?_, ?_, ?_, ?_, ?_, ?_⟩
  · simp [Hybrid.prepare, hn, Hybrid.prepareTransitionBlock]
  · simp [Hybrid.prepare, hn, Hybrid.prepareTransitionBlock]
  · rw [heq]
    simp [hflat]
    ring
  · rw [heq, triple_take_left _ _ _ extraVanity hvan]
  · rw [heq, triple_drop_left _ _ _ extraVanity hvan,
      List.take_left' hflat2]
  · rw [heq, triple_drop_two _ _ _ extraVanity
      (AddressLength * h.initialSigners.length) hvan hflat2]

/-- C3 witness: transition height 100, header number 100; the trace is one
PoA call on the rewritten header and the extra field has `32+20·3+65 = 157`
bytes for the three-signer default set. -/
theorem claim_C3_transition_extra_witness :
    (hy100.prepare Except.ok Except.ok ⟨100, [1, 2, 3]⟩ 0).2.2 =
      [(EngineId.poa, ⟨100, transitionExtraData hy100.initialSigners⟩)] ∧
    (transitionExtraData hy100.initialSigners).length = 157 := by
  have h := claim_C3_transition_extra hy100 Except.ok Except.ok
    ⟨100, [1, 2, 3]⟩ 0 (by decide) (by decide)
  exact ⟨h.1, by rw [h.2.2.1]; decide⟩

/-- C10: at the transition height `Prepare` overwrites `header.Extra`
wholesale with the freshly built vanity‖signers‖seal bytes: the entire
result of the call is independent of the extra bytes the header carried
before the call, and the header handed to the PoA engine carries exactly
`transitionExtraData h.initialSigners`. -/
theorem claim_C10_extra_independent (h : Hybrid)
    (posP poaP : Header → Except String Header) (number : Nat)
    (extra1 extra2 : Bytes) (now : Nat)
    (hn : u64 number = h.transitionBlock) :
    h.prepare posP poaP ⟨number, extra1⟩ now =
      h.prepare posP poaP ⟨number, extra2⟩ now ∧
    (h.prepare posP poaP ⟨number, extra1⟩ now).2.2 =
      [(EngineId.poa, ⟨number, transitionExtraData h.initialSigners⟩)] := by
  constructor <;>
    simp [Hybrid.prepare, hn, Hybrid.prepareTransitionBlock]

/-- C10 witness: transition height 100; the `Prepare` results for headers
number 100 with extras `[7,7,7]` and `[]` coincide. -/
theorem claim_C10_extra_independent_witness :
    hy100.prepare Except.ok Except.ok ⟨100, [7, 7, 7]⟩ 0 =
      hy100.prepare Except.ok Except.ok ⟨100, []⟩ 0 :=
  (claim_C10_extra_independent hy100 Except.ok Except.ok 100 [7, 7, 7] [] 0
    (by decide)).1

/-- C5 counterexample: a config whose transition height is present but whose
Clique sub-config is absent, and whose transition height is also negative.
Validation fails, but the error text is the negative-height message and does
not contain "PoS to PoA transition requires Clique configuration", refuting
the claim's unconditional "whenever the Clique sub-configuration is absent"
clause. -/
theorem claim_C5_counterexample :
    cfgNegNoClique.posToPoATransitionBlock = some (-1) ∧
    cfgNegNoClique.clique = none ∧
    cfgNegNoClique.checkConfigForkOrder =
      some ("invalid PoS to PoA transition configuration: " ++
        "PoS to PoA transition block cannot be negative") ∧
    textContains
      ("invalid PoS to PoA transition configuration: " ++
        "PoS to PoA transition block cannot be negative")
      "PoS to PoA transition requires Clique configuration" = false := by
  refine ⟨rfl, rfl, rfl, ?_⟩
  decide

/-- C5 amended: chain-config validation, run as part of the fork-order
check, fails with an error containing "PoS to PoA transition block cannot be
negative" whenever the transition height is present and negative; fails with
an error containing "PoS to PoA transition requires Clique configuration"
whenever the transition height is present and non-negative but the Clique
sub-configuration is absent (a negative height without Clique reports the
negative-height error); and succeeds when the transition height is absent,
or is non-negative and accompanied by a Clique sub-configuration (height 0
is valid). -/
theorem claim_C5_config_validation (c : ChainConfig) :
    (∀ b : Int, c.posToPoATransitionBlock = some b → b < 0 →
      ∃ msg, c.checkConfigForkOrder = some msg ∧
        textContains msg "PoS to PoA transition block cannot be negative" =
          true) ∧
    (∀ b : Int, c.posToPoATransitionBlock = some b → 0 ≤ b →
      c.clique = none →
      ∃ msg, c.checkConfigForkOrder = some msg ∧
        textContains msg
          "PoS to PoA transition requires Clique configuration" = true) ∧
    (c.posToPoATransitionBlock = none → c.checkConfigForkOrder = none) ∧
    (∀ (b : Int) (cl : CliqueConfig), c.posToPoATransitionBlock = some b →
      0 ≤ b → c.clique = some cl → c.checkConfigForkOrder = none) := by
  refine ⟨?_, ?_, ?_, ?_⟩
  · intro b hb hneg
    refine ⟨"invalid PoS to PoA transition configuration: " ++
      "PoS to PoA transition block cannot be negative", ?_, by decide⟩
    simp [ChainConfig.checkConfigForkOrder,
      ChainConfig.validatePoSToPoATransition, hb, hneg]
  · intro b hb hnonneg hcl
    refine ⟨"invalid PoS to PoA transition configuration: " ++
      "PoS to PoA transition requires Clique configuration", ?_, by decide⟩
    simp [ChainConfig.checkConfigForkOrder,
      ChainConfig.validatePoSToPoATransition, hb, hcl, Int.not_lt.mpr hnonneg]
  · intro hb
    simp [ChainConfig.checkConfigForkOrder,
      ChainConfig.validatePoSToPoATransition, hb]
  · intro b cl hb hnonneg hcl
    simp [ChainConfig.checkConfigForkOrder,
      ChainConfig.validatePoSToPoATransition, hb, hcl, Int.not_lt.mpr hnonneg]

/-- C5 witness: the no-Clique config with height 1000 is rejected with the
requires-Clique error; the genesis-height config with Clique passes. -/
theorem claim_C5_config_validation_witness :
    (∃ msg, cfgNoClique.checkConfigForkOrder = some msg ∧
      textContains msg "PoS to PoA transition requires Clique configuration" =
        true) ∧
    cfgGenesisClique.checkConfigForkOrder = none :=
  ⟨(claim_C5_config_validation cfgNoClique).2.1 1000 rfl (by decide) rfl,
   (claim_C5_config_validation cfgGenesisClique).2.2.2 0
     { period := 15, epoch := 30000 } rfl (by decide) rfl⟩

end HybridSpec
